import Mathlib

/-!
Verification of the Inim SmartLiving alarm-panel protocol engine
(`custom_components/inim_smartliving_alarm/inim_api.py`).

The Python code is shallowly embedded: hex strings become `List Char`,
byte values become `Nat` (with explicit `% 256` / `% 0x10000` where the
code truncates), fallible operations return `Option`, and the network is
an explicit oracle argument (`respond` / `fetch`) so that which commands
are sent can be observed as data.
-/

namespace InimAlarm

/-- Value of one hex digit character, as Python's `int(c, 16)` sees a
single character: `none` when the character is not a hex digit. -/
def hexDigitVal (c : Char) : Option Nat :=
  if '0' ≤ c ∧ c ≤ '9' then some (c.toNat - '0'.toNat)
  else if 'a' ≤ c ∧ c ≤ 'f' then some (c.toNat - 'a'.toNat + 10)
  else if 'A' ≤ c ∧ c ≤ 'F' then some (c.toNat - 'A'.toNat + 10)
  else none

/-- Lowercase hex digit character for a value below 16. -/
def hexChar (n : Nat) : Char :=
  if n < 10 then Char.ofNat ('0'.toNat + n)
  else Char.ofNat ('a'.toNat + (n - 10))

/-- Python's `format(n, "02x")` for a byte value: two lowercase hex digits. -/
def toHex2 (n : Nat) : List Char :=
  [hexChar (n / 16 % 16), hexChar (n % 16)]

/-- The sum accumulated by the loop of `calculate_checksum`
(inim_api.py:268-271): the hex string is cut into chunks of two
characters (a trailing odd character forms a one-character chunk, which
Python's slicing silently produces) and each chunk is parsed with
`int(chunk, 16)`.  `none` models the `ValueError` a non-hex character
would raise. -/
def sumHexChunks : List Char → Option Nat
  | [] => some 0
  | [a] => hexDigitVal a
  | a :: b :: rest =>
    match hexDigitVal a, hexDigitVal b, sumHexChunks rest with
    | some va, some vb, some r => some (va * 16 + vb + r)
    | _, _, _ => none

/-- `InimAlarmAPI.calculate_checksum` (inim_api.py:253-273): CheckSum8
modulo 256 over a hex string, returned as two lowercase hex digits.
The empty string short-circuits to `"00"` (line 265-266). -/
def calculate_checksum (hex_data_string : List Char) : Option (List Char) :=
  if hex_data_string = [] then some ['0', '0']
  else (sumHexChunks hex_data_string).map (fun s => toHex2 (s % 256))

/-- Specification-side byte sum: on an even-length hex string this is the
sum of the byte values (16·hi + lo per pair); a trailing lone digit
contributes its own digit value. -/
def specByteSum : List Char → Nat
  | [] => 0
  | [a] => (hexDigitVal a).getD 0
  | a :: b :: rest =>
    (16 * (hexDigitVal a).getD 0 + (hexDigitVal b).getD 0) + specByteSum rest

/-- `InimAlarmConstants.PIN_LENGTH_BYTES` (inim_api.py:19). -/
def PIN_LENGTH_BYTES : Nat := 6

/-- `"ff" * n`: the filler appended by `format_pin_code` (inim_api.py:298-300). -/
def ffRepeat : Nat → List Char
  | 0 => []
  | n + 1 => 'f' :: 'f' :: ffRepeat n

/-- `InimAlarmAPI.format_pin_code` (inim_api.py:275-302): each PIN digit
character becomes the two hex characters `'0'` then the digit, the result
is padded with `"ff"` pairs up to 12 hex characters when shorter, and is
finally sliced to 12 hex characters.  Python's
`padding_needed_chars = 12 - len` can be negative, in which case the
`if padding_needed_chars > 0` guard skips the padding — truncating `Nat`
subtraction composed with `0 <` models exactly that. -/
def format_pin_code (pin_str : List Char) : List Char :=
  let pin_bytes_hex := pin_str.foldl (fun acc c => acc ++ ['0', c]) []
  let padding_needed_chars := PIN_LENGTH_BYTES * 2 - pin_bytes_hex.length
  let padded :=
    if 0 < padding_needed_chars then
      pin_bytes_hex ++ ffRepeat (padding_needed_chars / 2)
    else pin_bytes_hex
  padded.take (PIN_LENGTH_BYTES * 2)

/-- Specification-side PIN digit expansion: one `'0' :: digit` pair per
PIN character, in order. -/
def pinDigitsHex : List Char → List Char
  | [] => []
  | c :: rest => '0' :: c :: pinDigitsHex rest

/-- Result of decoding byte 8 of a zone-configuration part-1 entry
(`time_desc` in inim_api.py:684-707): which description string the code
builds, abstracted to its constructor and embedded number. -/
inductive TimeDesc where
  | seconds (n : Nat)
  | minutes (n : Nat)
  | raw (v : Nat)
  deriving DecidableEq, Repr

/-- Decoding of byte 8 of a 9-byte zone-configuration entry
(inim_api.py:684-707): values 0–0x3B are reported as seconds; values
≥ 0x80 as minutes, where the code computes
`v - 0x80 + (1 if v > 0x80 else 0)` and then forces 0 for `v = 0x80`;
anything else keeps the raw-value description. -/
def decodeTimeByte (time_val_int : Nat) : TimeDesc :=
  if time_val_int ≤ 0x3B then .seconds time_val_int
  else if 0x80 ≤ time_val_int then
    let minutes_val :=
      time_val_int - 0x80 + (if 0x80 < time_val_int then 1 else 0)
    let minutes_val := if time_val_int = 0x80 then 0 else minutes_val
    .minutes minutes_val
  else .raw time_val_int

/-- `InimAlarmConstants.MAX_EVENTS_PER_FETCH` (inim_api.py:26). -/
def MAX_EVENTS_PER_FETCH : Nat := 50

/-- `InimAlarmConstants.DEFAULT_SYSTEM_MAX_SCENARIOS` (inim_api.py:23). -/
def DEFAULT_SYSTEM_MAX_SCENARIOS : Nat := 30

/-- Result of `get_compact_events` (inim_api.py:1461-1464), extended with
the trace `fetches` of the compact-event indices for which a per-event
fetch command was issued, so that "no per-event fetch happened" is
observable. -/
structure EventsResult where
  events : List (Int × List Char)
  latest_event_index_val : Option Int
  fetches : List Int
  deriving DecidableEq, Repr

/-- The walk-back loop of `get_compact_events` (inim_api.py:1407-1458).
`fetch` abstracts `_fetch_one_compact_event` (inim_api.py:1212-1321): it
maps a compact-event index to the 9-byte response hex, `none` on fetch
failure.  One iteration: stop if the index went negative (line 1409);
in incremental mode stop once the index reaches or passes the
last-processed index (lines 1416-1423); otherwise issue the fetch
(recorded in the trace), stop on failure, and step the index down by 9. -/
def eventWalk (fetch : Int → Option (List Char)) (incremental : Bool)
    (last_processed : Int) : Nat → Int → List (Int × List Char) × List Int
  | 0, _ => ([], [])
  | n + 1, cur =>
    if cur < 0 then ([], [])
    else if incremental ∧ cur ≤ last_processed then ([], [])
    else
      match fetch cur with
      | none => ([], [cur])
      | some ev =>
        let rest := eventWalk fetch incremental last_processed n (cur - 9)
        ((cur, ev) :: rest.1, cur :: rest.2)

/-- `get_compact_events` (inim_api.py:1323-1464).  `x_next` is the
extended event pointer as parsed from `_get_raw_next_event_pointer`
(little-endian swap and `int(_, 16)` already applied; `none` models
pointer-fetch or parse failure, lines 1338-1358).  The head index is
`((x_next - 1) * 9 + 0x9204) & 0xFFFF` (lines 1346-1349); on `Int`,
Python's `& 0xFFFF` is `% 0x10000` (`Int.emod` is nonnegative for a
positive modulus, as in Python).  Mode selection follows lines
1363-1405: an explicit `count` is clamped into 1..50; otherwise a
last-processed index triggers the early empty return when the head is
not newer (lines 1377-1390); with neither, an empty result is returned. -/
def get_compact_events (x_next : Option Int) (count : Option Nat)
    (last_processed : Option Int) (fetch : Int → Option (List Char)) :
    EventsResult :=
  match x_next with
  | none => ⟨[], none, []⟩
  | some x =>
    let y := ((x - 1) * 9 + 0x9204) % 0x10000
    match count with
    | some c =>
      let actual :=
        if 0 < c ∧ c ≤ MAX_EVENTS_PER_FETCH then c
        else min (max 1 c) MAX_EVENTS_PER_FETCH
      let walked := eventWalk fetch false 0 actual y
      ⟨walked.1, some y, walked.2⟩
    | none =>
      match last_processed with
      | some l =>
        if y ≤ l then ⟨[], some y, []⟩
        else
          let walked := eventWalk fetch true l MAX_EVENTS_PER_FETCH y
          ⟨walked.1, some y, walked.2⟩
      | none => ⟨[], some y, []⟩

/-- Checksum of hex text the code itself constructed from hex digits:
`int(chunk, 16)` cannot fail there, so the `Option` is discharged with a
default that is never reached in those uses. -/
def checksumHex (l : List Char) : List Char :=
  (calculate_checksum l).getD ['0', '0']

/-- `cmd_prefix` of `CHECK_SCENARIO_ACTIVATION_ALLOWED_INFO` (inim_api.py:75). -/
def checkScenarioCmdPrefix : List Char :=
  ['0', '0', '0', '0', '0', '0', '1', 'f', 'f', '9']

/-- `cmd_suffix` of `CHECK_SCENARIO_ACTIVATION_ALLOWED_INFO` (inim_api.py:76). -/
def checkScenarioCmdSuffix : List Char := ['0', 'd']

/-- `cmd_full` of `ACTIVATE_SCENARIO_CMD_INFO` (inim_api.py:80). -/
def activateScenarioCmdFull : List Char :=
  ['0', '1', '0', '0', '0', '0', '2', '0', '0', 'a', '0', '0', '0', '7', '3', '2']

/-- The full permission-check command built by
`check_scenario_activation_allowed` (inim_api.py:954-967): prefix, then
the single variable byte `0x80 + scenario`, then the suffix, then the
checksum of those seven bytes. -/
def check_scenario_cmd (scenario_number_0_indexed : Nat) : List Char :=
  let seven := checkScenarioCmdPrefix ++
    toHex2 (0x80 + scenario_number_0_indexed) ++ checkScenarioCmdSuffix
  seven ++ checksumHex seven

/-- The full activation command sent by `activate_scenario`
(inim_api.py:1584-1588): the fixed 8-byte base command followed by the
6-byte PIN and the scenario byte. -/
def activate_scenario_cmd (pin_hex : List Char)
    (scenario_number : Nat) : List Char :=
  activateScenarioCmdFull ++ pin_hex ++ toHex2 scenario_number

/-- `check_scenario_activation_allowed` (inim_api.py:926-993): validates
the scenario number, sends the permission-check command through the
responder (which abstracts `_send_command_core`: `none` is a
communication/validation failure), and reports `true` exactly when the
13 data bytes are all zero (line 984-988). -/
def check_scenario_activation_allowed
    (respond : List Char → Option (List Char))
    (scenario_number_0_indexed : Nat) : Bool :=
  if scenario_number_0_indexed < DEFAULT_SYSTEM_MAX_SCENARIOS then
    match respond (check_scenario_cmd scenario_number_0_indexed) with
    | none => false
    | some d => d == List.replicate 26 '0'
  else false

/-- `activate_scenario` (inim_api.py:1566-1618): validates the scenario
number, sends the activation command, and succeeds exactly when the
one-byte reply equals the checksum of the PIN + scenario payload
(lines 1599-1610); a communication failure (`none`) yields `false`. -/
def activate_scenario (respond : List Char → Option (List Char))
    (pin_hex : List Char) (scenario_number : Nat) : Bool :=
  if scenario_number < 30 then
    match respond (activate_scenario_cmd pin_hex scenario_number) with
    | none => false
    | some resp =>
      if resp.length = 2 then
        resp == checksumHex (pin_hex ++ toHex2 scenario_number)
      else false
  else false

/-- The panel as seen by `execute_activate_scenario`: whether `connect`
succeeds, and the response data each sent command produces. -/
structure PanelModel where
  connectOk : Bool
  respond : List Char → Option (List Char)

/-- `execute_activate_scenario` (inim_api.py:1740-1819), returning the
overall success flag together with the trace of commands sent, in order.
The scenario number is validated first (lines 1753-1761), then the
connection is made (1763-1767), then the permission check runs; only
when it reports allowed is the activation command sent (1790-1798).
The `is_allowed is None` branch of the source (line 1780) is
unreachable, since `check_scenario_activation_allowed` only returns a
boolean. -/
def execute_activate_scenario (panel : PanelModel) (pin_hex : List Char)
    (scenario_number_0_indexed : Nat) : Bool × List (List Char) :=
  if scenario_number_0_indexed < DEFAULT_SYSTEM_MAX_SCENARIOS then
    if panel.connectOk then
      let is_allowed :=
        check_scenario_activation_allowed panel.respond
          scenario_number_0_indexed
      if is_allowed then
        let ok := activate_scenario panel.respond pin_hex
          scenario_number_0_indexed
        (ok, [check_scenario_cmd scenario_number_0_indexed,
              activate_scenario_cmd pin_hex scenario_number_0_indexed])
      else (false, [check_scenario_cmd scenario_number_0_indexed])
    else (false, [])
  else (false, [])

/-- Live status of one zone as decoded by `get_zones_status`. -/
inductive ZoneStatus where
  | clear
  | alarmed
  | unknown
  deriving DecidableEq, Repr

/-- The zone pair governed by one status digit (inim_api.py:1116-1128):
with `m = digit_index / 2`, an even digit index addresses zones
`4m+3, 4m+4` and an odd one `4m+1, 4m+2`. -/
def zonePairForDigit (digit_index : Nat) : Nat × Nat :=
  let m := digit_index / 2
  if digit_index % 2 = 0 then (m * 4 + 3, m * 4 + 4)
  else (m * 4 + 1, m * 4 + 2)

/-- Decoding of one status digit into the pair of zone statuses
(inim_api.py:1130-1149): `'5'` both clear, `'6'` first alarmed, `'9'`
second alarmed, `'a'` both alarmed, anything else both unknown. -/
def decodeZoneStatusDigit (hex_digit_char : Char) : ZoneStatus × ZoneStatus :=
  if hex_digit_char = '5' then (.clear, .clear)
  else if hex_digit_char = '6' then (.alarmed, .clear)
  else if hex_digit_char = '9' then (.clear, .alarmed)
  else if hex_digit_char = 'a' then (.alarmed, .alarmed)
  else (.unknown, .unknown)

/-- One iteration of the digit loop of `get_zones_status`
(inim_api.py:1113-1156) on a 50-hex-digit zone status block: the two
zone numbers this digit governs, each with the status decoded from the
digit character. -/
def zoneStatusDigitEntry (zone_status_block : List Char) (digit_index : Nat) :
    (Nat × ZoneStatus) × (Nat × ZoneStatus) :=
  let pair := zonePairForDigit digit_index
  let statuses := decodeZoneStatusDigit (zone_status_block.getD digit_index ' ')
  ((pair.1, statuses.1), (pair.2, statuses.2))

/-- `InimAlarmConstants.MAX_AREAS_PAYLOAD` (inim_api.py:173). -/
def MAX_AREAS_PAYLOAD : Nat := 16

/-- The action character chosen for one area by
`_construct_area_action_payload` (inim_api.py:1486-1493): `'1'` to arm,
`'4'` to disarm, `'0'` to keep the current status, with arm tested
first. -/
def actionForArea (areas_to_arm areas_to_disarm : List Nat)
    (area_num_1_indexed : Nat) : Char :=
  if area_num_1_indexed ∈ areas_to_arm then '1'
  else if area_num_1_indexed ∈ areas_to_disarm then '4'
  else '0'

/-- `_construct_area_action_payload` (inim_api.py:1467-1516): 16 nibbles
initialised to keep-status, then for each area 1..16 the action nibble
is written at the inverted position (even areas in the high nibble of
their byte, odd areas in the low nibble), and the string is sliced to
16 hex characters. -/
def construct_area_action_payload
    (areas_to_arm areas_to_disarm : List Nat) : List Char :=
  let init := List.replicate MAX_AREAS_PAYLOAD '0'
  let filled := (List.range MAX_AREAS_PAYLOAD).foldl
    (fun payload_nibbles i =>
      let area_num_1_indexed := i + 1
      let action := actionForArea areas_to_arm areas_to_disarm
        area_num_1_indexed
      let byte_index_for_area := (area_num_1_indexed - 1) / 2
      let nibble_string_index :=
        if area_num_1_indexed % 2 = 0 then byte_index_for_area * 2
        else byte_index_for_area * 2 + 1
      if nibble_string_index < payload_nibbles.length then
        payload_nibbles.set nibble_string_index action
      else payload_nibbles)
    init
  filled.take 16

/-- The per-area action requested of the panel. -/
inductive AreaAction where
  | arm
  | disarm
  | keep
  deriving DecidableEq, Repr

/-- Modelled from the spec: reading one area's action back out of the
8-byte arm/disarm payload with the same inverted two-areas-per-byte
nibble convention (the repository has no unpacking function for this
payload; the convention is the one `_construct_area_action_payload`
writes with and §4.4/§4.7 of the spec describe). -/
def unpack_area_action (payload : List Char)
    (area_num_1_indexed : Nat) : AreaAction :=
  let byte_index_for_area := (area_num_1_indexed - 1) / 2
  let nibble_string_index :=
    if area_num_1_indexed % 2 = 0 then byte_index_for_area * 2
    else byte_index_for_area * 2 + 1
  match payload.getD nibble_string_index '0' with
  | '1' => .arm
  | '4' => .disarm
  | _ => .keep

/-- The resource keys fetched by `get_initial_panel_configuration`, in
source order (inim_api.py:1633-1644). -/
def initial_config_resources : List String :=
  ["system_info", "areas", "zones", "zones_config", "scenarios",
   "scenario_activations", "keyboard_names"]

/-- The fetch loop of `get_initial_panel_configuration`
(inim_api.py:1645-1650): every resource in the list is fetched in turn;
a `none` result appends `"Failed <key>."` to the error list and the loop
continues with the remaining resources. -/
def config_fetch_loop (fetch : String → Option String) :
    List String → List (String × Option String) × List String
  | [] => ([], [])
  | key :: rest =>
    let r := fetch key
    let tail := config_fetch_loop fetch rest
    ((key, r) :: tail.1,
     (if r.isNone then ["Failed " ++ key ++ "."] else []) ++ tail.2)

/-- `get_initial_panel_configuration` (inim_api.py:1623-1665): after a
successful connect, every resource is fetched and stored together with
the per-resource error list; the aggregate is returned, never raised
(sub-fetch failures surface as `none` results, since
`_send_command_core` catches its exceptions, inim_api.py:463-468). -/
def get_initial_panel_configuration (connectOk : Bool)
    (fetch : String → Option String) :
    Option (List (String × Option String) × List String) :=
  if connectOk then some (config_fetch_loop fetch initial_config_resources)
  else none

/-- The command sequencing of `get_zones` (inim_api.py:521-541): the
seven zone-name responses are concatenated; the first failed command
makes the whole zone-names resource fail (`none`). -/
def get_zones_concat : List (Option (List Char)) → Option (List Char)
  | [] => some []
  | none :: _ => none
  | some part :: rest => (get_zones_concat rest).map (part ++ ·)

/-! ## Helper lemmas -/

/-- Induction principle matching the two-characters-at-a-time chunking of
`calculate_checksum`. -/
theorem chunkInduction {P : List Char → Prop} (h0 : P []) (h1 : ∀ a, P [a])
    (h2 : ∀ a b l, P l → P (a :: b :: l)) : ∀ l, P l
  | [] => h0
  | [a] => h1 a
  | a :: b :: l => h2 a b l (chunkInduction h0 h1 h2 l)

/-- On all-hex input the chunk sum never fails and equals the
specification-side byte sum. -/
theorem sumHexChunks_eq : ∀ l : List Char,
    (∀ c ∈ l, (hexDigitVal c).isSome) →
    sumHexChunks l = some (specByteSum l) := by
  intro l
  induction l using chunkInduction with
  | h0 => intro _; rfl
  | h1 a =>
    intro h
    obtain ⟨v, hv⟩ := Option.isSome_iff_exists.mp (h a (by simp))
    simp [sumHexChunks, specByteSum, hv]
  | h2 a b l ih =>
    intro h
    obtain ⟨va, hva⟩ := Option.isSome_iff_exists.mp (h a (by simp))
    obtain ⟨vb, hvb⟩ := Option.isSome_iff_exists.mp (h b (by simp))
    have ih' := ih (fun c hc => h c (by simp [hc]))
    simp [sumHexChunks, specByteSum, hva, hvb, ih']
    ring

/-- Whatever goes in, `get_compact_events` with a readable pointer always
reports the derived head index back. -/
theorem get_compact_events_latest (x : Int) (count : Option Nat)
    (last_processed : Option Int) (fetch : Int → Option (List Char)) :
    (get_compact_events (some x) count last_processed
        fetch).latest_event_index_val
      = some (((x - 1) * 9 + 0x9204) % 0x10000) := by
  cases count with
  | some c => rfl
  | none =>
    cases last_processed with
    | none => rfl
    | some l =>
      simp only [get_compact_events]
      split <;> rfl

/-! ## Claims -/

/-- C1 counterexample.  The claim states that byte-8 values `v ≥ 0x80`
decode to `v - 0x80` minutes; at `v = 0x81` the code decodes 2 minutes,
not `0x81 - 0x80 = 1`. -/
theorem C1_counterexample :
    decodeTimeByte 0x81 ≠ TimeDesc.minutes (0x81 - 0x80) := by decide

/-- C1 (amended): byte 8 of a 9-byte zone entry decodes values 0–59 as
that many seconds and `v = 0x80` as 0 minutes, but a value `v > 0x80`
decodes as `v - 0x80 + 1` minutes. -/
theorem C1_zone_time_decode (v : Nat) :
    (v ≤ 59 → decodeTimeByte v = .seconds v) ∧
    decodeTimeByte 0x80 = .minutes 0 ∧
    (0x80 < v → decodeTimeByte v = .minutes (v - 0x80 + 1)) := by
  refine ⟨fun h => ?_, by decide, fun h => ?_⟩
  · simp only [decodeTimeByte]
    rw [if_pos (by omega)]
  · simp only [decodeTimeByte]
    rw [if_neg (by omega), if_pos (by omega), if_pos h,
      if_neg (by omega : ¬ v = 0x80)]

/-- C1 witness: the amended minute branch at the concrete input 0x85. -/
theorem C1_witness :
    0x80 < 0x85 ∧ decodeTimeByte 0x85 = .minutes (0x85 - 0x80 + 1) :=
  ⟨by decide, (C1_zone_time_decode 0x85).2.2 (by decide)⟩

/-- C2 counterexample.  The claim states that the checksum codec's only
failure mode is rejecting odd-length hex input; the code accepts the
odd-length hex string `"abc"` and returns `"b7"`
(`0xab + 0xc = 0xb7`), rejecting nothing. -/
theorem C2_counterexample :
    calculate_checksum ['a', 'b', 'c'] = some ['b', '7'] := by decide

/-- C2 (amended): on every hex string (any length) the checksum codec
succeeds and returns the chunk sum modulo 256 as two lowercase hex
digits — for even-length input that sum is the sum of the byte values;
odd-length input is not rejected, its trailing lone digit is summed as
its own value. -/
theorem C2_checksum_sum (l : List Char)
    (h : ∀ c ∈ l, (hexDigitVal c).isSome) :
    calculate_checksum l = some (toHex2 (specByteSum l % 256)) := by
  by_cases he : l = []
  · subst he; decide
  · simp [calculate_checksum, he, sumHexChunks_eq l h]

/-- C2 witness: the even-length hex string `"0a0b"` sums to
`0x0a + 0x0b = 0x15`. -/
theorem C2_witness :
    (∀ c ∈ (['0', 'a', '0', 'b'] : List Char), (hexDigitVal c).isSome) ∧
    calculate_checksum ['0', 'a', '0', 'b']
      = some (toHex2 (specByteSum ['0', 'a', '0', 'b'] % 256)) :=
  ⟨by decide, C2_checksum_sum ['0', 'a', '0', 'b'] (by decide)⟩

/-- C3: for every 16-bit extended pointer value the event-log reader
derives the most-recent compact-event index as
`((X_next - 1) * 9 + 0x9204) mod 0x10000` and returns it as the latest
event index; in particular `X_next = 0x01D5` yields exactly
`((0x01D4) * 9 + 0x9204) mod 0x10000`. -/
theorem C3_event_head_arithmetic (x : Int) (count : Option Nat)
    (last_processed : Option Int) (fetch : Int → Option (List Char)) :
    (get_compact_events (some x) count last_processed
        fetch).latest_event_index_val
      = some (((x - 1) * 9 + 0x9204) % 0x10000) ∧
    (get_compact_events (some 0x01D5) count last_processed
        fetch).latest_event_index_val
      = some (((0x01D4 : Int) * 9 + 0x9204) % 0x10000) := by
  refine ⟨get_compact_events_latest x count last_processed fetch, ?_⟩
  rw [get_compact_events_latest 0x01D5 count last_processed fetch]
  norm_num

/-- C4: in steady-state polling mode (no count, last-known index given),
a head not strictly newer than the last-known index yields an empty
event list, the resolved head index, and no per-event fetch. -/
theorem C4_incremental_empty_batch (x l : Int)
    (fetch : Int → Option (List Char))
    (h : ((x - 1) * 9 + 0x9204) % 0x10000 ≤ l) :
    get_compact_events (some x) none (some l) fetch
      = ⟨[], some (((x - 1) * 9 + 0x9204) % 0x10000), []⟩ := by
  simp only [get_compact_events]
  rw [if_pos h]

/-- C4 witness: head 41592 derived from pointer 0x01D5 equals the
last-known index, so the batch is empty and nothing is fetched. -/
theorem C4_witness :
    ((0x01D5 - 1 : Int) * 9 + 0x9204) % 0x10000 ≤ 41592 ∧
    get_compact_events (some 0x01D5) none (some 41592) (fun _ => none)
      = ⟨[], some 41592, []⟩ := by
  refine ⟨by decide, ?_⟩
  rw [C4_incremental_empty_batch 0x01D5 41592 (fun _ => none) (by decide)]
  decide

/-- The checksum rendered by `checksumHex` is always exactly one byte
(two hex characters). -/
theorem checksumHex_length (l : List Char) : (checksumHex l).length = 2 := by
  unfold checksumHex calculate_checksum
  split
  · rfl
  · cases h : sumHexChunks l <;> simp [h, toHex2]

/-- C5: whenever the pre-activation permission check (whose command's
single variable byte is `0x80 + scenario`, by construction of
`check_scenario_cmd`) answers with a data block that is not all zero
bytes, `execute_activate_scenario` returns `false` and the only command
sent is the permission check — the activation command is never sent. -/
theorem C5_blocked_scenario_no_activation (panel : PanelModel)
    (pin_hex : List Char) (n : Nat) (d : List Char)
    (hn : n < 30) (hc : panel.connectOk = true)
    (hd : panel.respond (check_scenario_cmd n) = some d)
    (hz : d ≠ List.replicate 26 '0') :
    (execute_activate_scenario panel pin_hex n).1 = false ∧
    (execute_activate_scenario panel pin_hex n).2 = [check_scenario_cmd n] ∧
    activate_scenario_cmd pin_hex n ∉
      (execute_activate_scenario panel pin_hex n).2 := by
  have hbeq : (d == List.replicate 26 '0') = false :=
    beq_eq_false_iff_ne.mpr hz
  have hallow : check_scenario_activation_allowed panel.respond n = false := by
    simp [check_scenario_activation_allowed, DEFAULT_SYSTEM_MAX_SCENARIOS,
      hn, hd, hbeq]
    intro he
    exact hz (he.trans (by decide))
  have hexec : execute_activate_scenario panel pin_hex n
      = (false, [check_scenario_cmd n]) := by
    simp [execute_activate_scenario, DEFAULT_SYSTEM_MAX_SCENARIOS, hn, hc,
      hallow]
  have hne : activate_scenario_cmd pin_hex n ≠ check_scenario_cmd n := by
    intro heq
    have := congrArg List.length heq
    simp [activate_scenario_cmd, check_scenario_cmd, activateScenarioCmdFull,
      checkScenarioCmdPrefix, checkScenarioCmdSuffix, toHex2,
      checksumHex_length] at this
  rw [hexec]
  exact ⟨rfl, rfl, by simp [hne]⟩

/-- C5 witness: scenario 0 on a panel whose permission check returns 13
bytes of `0x11`. -/
theorem C5_witness :
    (execute_activate_scenario
        ⟨true, fun _ => some (List.replicate 26 '1')⟩
        ['f', 'f', 'f', 'f', 'f', 'f', 'f', 'f', 'f', 'f', 'f', 'f'] 0).1
      = false ∧
    (execute_activate_scenario
        ⟨true, fun _ => some (List.replicate 26 '1')⟩
        ['f', 'f', 'f', 'f', 'f', 'f', 'f', 'f', 'f', 'f', 'f', 'f'] 0).2
      = [check_scenario_cmd 0] ∧
    activate_scenario_cmd
        ['f', 'f', 'f', 'f', 'f', 'f', 'f', 'f', 'f', 'f', 'f', 'f'] 0 ∉
      (execute_activate_scenario
          ⟨true, fun _ => some (List.replicate 26 '1')⟩
          ['f', 'f', 'f', 'f', 'f', 'f', 'f', 'f', 'f', 'f', 'f', 'f'] 0).2 :=
  C5_blocked_scenario_no_activation
    ⟨true, fun _ => some (List.replicate 26 '1')⟩
    ['f', 'f', 'f', 'f', 'f', 'f', 'f', 'f', 'f', 'f', 'f', 'f'] 0
    (List.replicate 26 '1') (by decide) rfl rfl (by decide)

/-- C6: on a zone status block, each digit index `d < 50` with
`m = d / 2` governs zones `4m+3, 4m+4` when even and `4m+1, 4m+2` when
odd; digit `'5'` decodes both zones clear, `'6'` first alarmed / second
clear, `'9'` first clear / second alarmed, `'a'` both alarmed, and any
other digit value decodes both zones unknown. -/
theorem C6_zone_status_digit_decoding (zone_status_block : List Char)
    (d : Nat) (hd : d < 50) :
    (d % 2 = 0 →
      zonePairForDigit d = (4 * (d / 2) + 3, 4 * (d / 2) + 4)) ∧
    (d % 2 = 1 →
      zonePairForDigit d = (4 * (d / 2) + 1, 4 * (d / 2) + 2)) ∧
    (zone_status_block.getD d ' ' = '5' →
      decodeZoneStatusDigit (zone_status_block.getD d ' ')
        = (.clear, .clear)) ∧
    (zone_status_block.getD d ' ' = '6' →
      decodeZoneStatusDigit (zone_status_block.getD d ' ')
        = (.alarmed, .clear)) ∧
    (zone_status_block.getD d ' ' = '9' →
      decodeZoneStatusDigit (zone_status_block.getD d ' ')
        = (.clear, .alarmed)) ∧
    (zone_status_block.getD d ' ' = 'a' →
      decodeZoneStatusDigit (zone_status_block.getD d ' ')
        = (.alarmed, .alarmed)) ∧
    (zone_status_block.getD d ' ' ≠ '5' →
      zone_status_block.getD d ' ' ≠ '6' →
      zone_status_block.getD d ' ' ≠ '9' →
      zone_status_block.getD d ' ' ≠ 'a' →
      decodeZoneStatusDigit (zone_status_block.getD d ' ')
        = (.unknown, .unknown)) := by
  refine ⟨fun h => ?_, fun h => ?_, fun h => ?_, fun h => ?_, fun h => ?_,
    fun h => ?_, fun h5 h6 h9 ha => ?_⟩
  · simp [zonePairForDigit, h, Nat.mul_comm]
  · have : ¬ d % 2 = 0 := by omega
    simp [zonePairForDigit, this, Nat.mul_comm]
  · rw [h]; decide
  · rw [h]; decide
  · rw [h]; decide
  · rw [h]; decide
  · unfold decodeZoneStatusDigit
    rw [if_neg h5, if_neg h6, if_neg h9, if_neg ha]

/-- C6 witness: the spec's two reference points — digit `'a'` at even
index 0 means zones 3 and 4 both alarmed, and digit `'6'` at odd index 1
means zone 1 alarmed, zone 2 clear. -/
theorem C6_witness :
    zonePairForDigit 0 = (4 * (0 / 2) + 3, 4 * (0 / 2) + 4) ∧
    decodeZoneStatusDigit ((['a', '6'] : List Char).getD 0 ' ')
      = (.alarmed, .alarmed) ∧
    zonePairForDigit 1 = (4 * (1 / 2) + 1, 4 * (1 / 2) + 2) ∧
    decodeZoneStatusDigit ((['a', '6'] : List Char).getD 1 ' ')
      = (.alarmed, .clear) :=
  ⟨(C6_zone_status_digit_decoding ['a', '6'] 0 (by decide)).1 (by decide),
   (C6_zone_status_digit_decoding ['a', '6'] 0
      (by decide)).2.2.2.2.2.1 (by decide),
   (C6_zone_status_digit_decoding ['a', '6'] 1 (by decide)).2.1 (by decide),
   (C6_zone_status_digit_decoding ['a', '6'] 1
      (by decide)).2.2.2.1 (by decide)⟩

/-- The PIN digit-expansion loop accumulates exactly one `'0' :: digit`
pair per character. -/
theorem foldl_pin_append (l : List Char) (acc : List Char) :
    l.foldl (fun acc c => acc ++ ['0', c]) acc = acc ++ pinDigitsHex l := by
  induction l generalizing acc with
  | nil => simp [pinDigitsHex]
  | cons c rest ih => simp [pinDigitsHex, ih]

theorem pinDigitsHex_length (l : List Char) :
    (pinDigitsHex l).length = 2 * l.length := by
  induction l with
  | nil => rfl
  | cons c rest ih => simp [pinDigitsHex, ih]; ring

theorem ffRepeat_length (n : Nat) : (ffRepeat n).length = 2 * n := by
  induction n with
  | zero => rfl
  | succ n ih => simp [ffRepeat, ih]; ring

theorem pinDigitsHex_take (l : List Char) (k : Nat) :
    pinDigitsHex (l.take k) = (pinDigitsHex l).take (2 * k) := by
  induction l generalizing k with
  | nil => simp [pinDigitsHex]
  | cons c rest ih =>
    cases k with
    | zero => simp [pinDigitsHex]
    | succ k =>
      have : 2 * (k + 1) = (2 * k) + 1 + 1 := by omega
      simp [pinDigitsHex, this, List.take_succ_cons, ih]

/-- Normal form of `format_pin_code`: digit expansion, filler up to six
bytes, sliced to 12 hex characters. -/
theorem format_pin_code_eq (pin_str : List Char) :
    format_pin_code pin_str =
      (pinDigitsHex pin_str ++ ffRepeat (6 - pin_str.length)).take 12 := by
  unfold format_pin_code PIN_LENGTH_BYTES
  rw [foldl_pin_append pin_str []]
  simp only [List.nil_append, pinDigitsHex_length]
  split
  · have : (6 * 2 - 2 * pin_str.length) / 2 = 6 - pin_str.length := by omega
    rw [this]
  · have : 6 - pin_str.length = 0 := by omega
    rw [this]
    simp [ffRepeat]

/-- C7: PIN encoding expands each digit to the byte `0x0d` and
right-pads with `0xFF` filler bytes to exactly 6 bytes. -/
theorem C7_pin_encoding (pin_str : List Char) (h : pin_str.length ≤ 6) :
    format_pin_code pin_str =
      pinDigitsHex pin_str ++ ffRepeat (6 - pin_str.length) := by
  rw [format_pin_code_eq]
  refine List.take_of_length_le ?_
  rw [List.length_append, pinDigitsHex_length, ffRepeat_length]
  omega

/-- C7 witness: `"1234"` encodes to `"01020304ffff"`, the empty PIN to
`"ffffffffffff"`, and a 6-digit PIN fills all 6 bytes with no filler. -/
theorem C7_witness :
    (['1', '2', '3', '4'] : List Char).length ≤ 6 ∧
    format_pin_code ['1', '2', '3', '4']
      = pinDigitsHex ['1', '2', '3', '4']
        ++ ffRepeat (6 - (['1', '2', '3', '4'] : List Char).length) ∧
    format_pin_code ['1', '2', '3', '4']
      = ['0', '1', '0', '2', '0', '3', '0', '4', 'f', 'f', 'f', 'f'] ∧
    format_pin_code []
      = ['f', 'f', 'f', 'f', 'f', 'f', 'f', 'f', 'f', 'f', 'f', 'f'] ∧
    format_pin_code ['1', '2', '3', '4', '5', '6']
      = pinDigitsHex ['1', '2', '3', '4', '5', '6'] :=
  ⟨by decide, C7_pin_encoding ['1', '2', '3', '4'] (by decide),
   by decide, by decide, by decide⟩

/-- C10: for every input, `format_pin_code` returns exactly 12 hex
characters (6 bytes), and an input longer than 6 digits is silently
truncated to its first 6 digits. -/
theorem C10_pin_truncation (pin_str : List Char) :
    (format_pin_code pin_str).length = 12 ∧
    format_pin_code pin_str = format_pin_code (pin_str.take 6) := by
  constructor
  · rw [format_pin_code_eq, List.length_take, List.length_append,
      pinDigitsHex_length, ffRepeat_length]
    omega
  · by_cases h : pin_str.length ≤ 6
    · rw [List.take_of_length_le h]
    · rw [format_pin_code_eq, format_pin_code_eq]
      have h0 : 6 - pin_str.length = 0 := by omega
      have h6 : (pin_str.take 6).length = 6 := by
        rw [List.length_take]; omega
      rw [h0, h6]
      simp only [ffRepeat, List.append_nil, Nat.sub_self]
      rw [pinDigitsHex_take]
      rw [List.take_take]
      norm_num

theorem range16_eq :
    List.range 16 = [0, 1, 2, 3, 4, 5, 6, 7, 8, 9, 10, 11, 12, 13, 14, 15] := by
  decide

theorem replicate16_eq : List.replicate 16 '0' =
    ['0', '0', '0', '0', '0', '0', '0', '0',
     '0', '0', '0', '0', '0', '0', '0', '0'] := by
  decide

set_option maxHeartbeats 1000000 in
/-- Normal form of the arm/disarm payload: 16 nibbles, each byte holding
its even-numbered area in the high nibble and its odd-numbered area in
the low nibble. -/
theorem construct_area_action_payload_eq (arm dis : List Nat) :
    construct_area_action_payload arm dis =
      [actionForArea arm dis 2, actionForArea arm dis 1,
       actionForArea arm dis 4, actionForArea arm dis 3,
       actionForArea arm dis 6, actionForArea arm dis 5,
       actionForArea arm dis 8, actionForArea arm dis 7,
       actionForArea arm dis 10, actionForArea arm dis 9,
       actionForArea arm dis 12, actionForArea arm dis 11,
       actionForArea arm dis 14, actionForArea arm dis 13,
       actionForArea arm dis 16, actionForArea arm dis 15] := by
  simp [construct_area_action_payload, MAX_AREAS_PAYLOAD, range16_eq,
    replicate16_eq, List.set]

set_option maxHeartbeats 2000000 in
/-- C8: packing a per-area action assignment over areas 1..16 (keep by
default, disjoint arm/disarm overrides) into the 8-byte payload and
reading it back with the same inverted-nibble convention recovers the
original per-area action. -/
theorem C8_area_payload_roundtrip (areas_to_arm areas_to_disarm : List Nat)
    (hdisj : ∀ a ∈ areas_to_arm, a ∉ areas_to_disarm)
    (a : Nat) (h1 : 1 ≤ a) (h16 : a ≤ 16) :
    unpack_area_action
        (construct_area_action_payload areas_to_arm areas_to_disarm) a
      = (if a ∈ areas_to_arm then .arm
         else if a ∈ areas_to_disarm then .disarm else .keep) := by
  rw [construct_area_action_payload_eq]
  by_cases harm : a ∈ areas_to_arm
  · have hdis : a ∉ areas_to_disarm := hdisj a harm
    rw [if_pos harm]
    interval_cases a <;>
      simp [unpack_area_action, actionForArea, harm]
  · by_cases hdis : a ∈ areas_to_disarm
    · rw [if_neg harm, if_pos hdis]
      interval_cases a <;>
        simp [unpack_area_action, actionForArea, harm, hdis]
    · rw [if_neg harm, if_neg hdis]
      interval_cases a <;>
        simp [unpack_area_action, actionForArea, harm, hdis]

/-- C8 witness: areas 1 and 3 armed, area 2 disarmed; area 2 reads back
as disarm. -/
theorem C8_witness :
    (∀ a ∈ ([1, 3] : List Nat), a ∉ ([2] : List Nat)) ∧
    unpack_area_action (construct_area_action_payload [1, 3] [2]) 2
      = (if 2 ∈ ([1, 3] : List Nat) then .arm
         else if 2 ∈ ([2] : List Nat) then .disarm else .keep) :=
  ⟨by decide,
   C8_area_payload_roundtrip [1, 3] [2] (by decide) 2 (by decide) (by decide)⟩

/-- The configuration fetch loop visits every resource and records
exactly the failed ones. -/
theorem config_fetch_loop_spec (fetch : String → Option String) :
    ∀ keys : List String,
      (config_fetch_loop fetch keys).1 = keys.map (fun k => (k, fetch k)) ∧
      (config_fetch_loop fetch keys).2 =
        (keys.filter (fun k => (fetch k).isNone)).map
          (fun k => "Failed " ++ k ++ ".") := by
  intro keys
  induction keys with
  | nil => exact ⟨rfl, rfl⟩
  | cons k rest ih =>
    refine ⟨?_, ?_⟩
    · simp [config_fetch_loop, ih.1]
    · cases hf : fetch k <;>
        simp [config_fetch_loop, List.filter_cons, hf, ih.2]

/-- A failed command anywhere in the zone-names sequence fails the whole
zone-names resource. -/
theorem get_zones_concat_none : ∀ parts : List (Option (List Char)),
    none ∈ parts → get_zones_concat parts = none := by
  intro parts h
  induction parts with
  | nil => cases h
  | cons p rest ih =>
    cases p with
    | none => rfl
    | some s =>
      have hr : none ∈ rest := by
        rcases List.mem_cons.mp h with hbad | hr
        · cases hbad
        · exact hr
      simp [get_zones_concat, ih hr]

/-- C9: in the aggregate initial-configuration fetch, every resource is
fetched and stored with its own outcome regardless of the other
resources (so one failure marks only that resource), the per-resource
error list names exactly the failed fetches, the aggregate is returned
rather than raised; and a single failed command in the zone-names
sequence is one way a resource fetch fails. -/
theorem C9_aggregate_partial_failure (fetch : String → Option String)
    (parts : List (Option (List Char))) (hfail : none ∈ parts) :
    get_initial_panel_configuration true fetch
      = some (initial_config_resources.map (fun k => (k, fetch k)),
          (initial_config_resources.filter (fun k => (fetch k).isNone)).map
            (fun k => "Failed " ++ k ++ ".")) ∧
    get_zones_concat parts = none := by
  refine ⟨?_, get_zones_concat_none parts hfail⟩
  have h := config_fetch_loop_spec fetch initial_config_resources
  simp only [get_initial_panel_configuration, if_pos]
  rw [← h.1, ← h.2]

/-- C9 witness: the zones fetch fails (here because one of its seven
zone-name commands failed), the aggregate still stores every resource
and lists exactly the zones failure. -/
theorem C9_witness :
    none ∈ ([some ['a', 'b'], none] : List (Option (List Char))) ∧
    get_initial_panel_configuration true
        (fun k => if k = "zones" then none else some k)
      = some (initial_config_resources.map
            (fun k => (k, if k = "zones" then none else some k)),
          (initial_config_resources.filter
              (fun k => (if k = "zones" then none else some k : Option String).isNone)).map
            (fun k => "Failed " ++ k ++ ".")) ∧
    get_zones_concat [some ['a', 'b'], none] = none :=
  ⟨by decide,
   (C9_aggregate_partial_failure (fun k => if k = "zones" then none else some k)
      [some ['a', 'b'], none] (by decide)).1,
   (C9_aggregate_partial_failure (fun k => if k = "zones" then none else some k)
      [some ['a', 'b'], none] (by decide)).2⟩

end InimAlarm
